import Mathlib

/-!
Verification of the turn-based obstacle-avoidance core in `play.py`.

The embedding is shallow: a course slice (`Grid`) is a 3×3 matrix of
occupancy values, a player position is a pair of coordinates in `[0,2]`,
the five `Action`s carry their `(delta row, delta col)` values, and the
game state holds the two-slot grid window plus the player location.  The
global mutable map supply (`GAME_MAP` / `NEXT_GRID`) is passed explicitly
as a `List Grid`; `NEXT_GRID(drop=True)` becomes `head?` / `tail`.
Python code that would raise on a missing grid is modelled with `Option`.
-/

namespace Play

/-- A course slice: a 3×3 matrix of occupancy values (a `numpy` array in
the source); an obstacle is a cell equal to `1`. -/
abbrev Grid := Fin 3 → Fin 3 → Nat

/-- A player position `(row, col)`, each coordinate in `[0,2]`. -/
abbrev Pos := Fin 3 × Fin 3

/-- `START_LOCATION = (1,1)` in the source. -/
def START_LOCATION : Pos := (1, 1)

/-- The move vocabulary, `class Action(Enum)` in the source, in its fixed
declaration order. -/
inductive Action where
  | LEFT
  | RIGHT
  | JUMP
  | DUCK
  | STAY
  deriving DecidableEq, Fintype

/-- Each action's enum value `(delta row, delta col)`. -/
def Action.value : Action → Int × Int
  | .LEFT => (0, -1)
  | .RIGHT => (0, 1)
  | .JUMP => (-1, 0)
  | .DUCK => (1, 0)
  | .STAY => (0, 0)

/-- `list(Action)`: the fixed enumeration order used by the lookahead
loop in `get_reward`. -/
def action_list : List Action := [.LEFT, .RIGHT, .JUMP, .DUCK, .STAY]

/-- The bounds logic of `_update_location`: first `max(0, v)`, then
`min(_, 2)`; the result always lands in `[0,2]`, hence in `Fin 3`. -/
def clamp02 (x : Int) : Fin 3 := ⟨(min (max 0 x) 2).toNat, by omega⟩

/-- `State._update_location`: apply the action's deltas to the location,
keeping both coordinates in bounds. -/
def update_location (player_location : Pos) (action : Action) : Pos :=
  (clamp02 ((player_location.1.val : Int) + action.value.1),
   clamp02 ((player_location.2.val : Int) + action.value.2))

/-- `State._collides`: the cell at the player's position is occupied, or
the player is standing (`row = 1`) and the cell directly below
(`row = 2`, same column) is occupied. -/
def collides (player_location : Pos) (grid : Grid) : Bool :=
  if grid player_location.1 player_location.2 = 1 then true
  else
    if player_location.1 = (1 : Fin 3) ∧ grid (2 : Fin 3) player_location.2 = 1 then true
    else false

/-- The `for move in list(Action)` loop at the end of `State.get_reward`:
return `total_reward + 1 = 2` at the first action whose resulting
location does not collide with the lookahead grid, and `total_reward = 1`
if the loop finishes. -/
def lookahead_loop (current_location : Pos) (grid1 : Grid) : List Action → Nat
  | [] => 1
  | m :: rest =>
    if collides (update_location current_location m) grid1 then
      lookahead_loop current_location grid1 rest
    else 2

/-- `State.get_reward`, parameterized by the state fields it reads:
the action, the two grid slots `grids[0]` and `grids[1]`, and the player
location.  An absent `grids[0]` makes the source crash when
`_collides` subscripts `None`; that is modelled by returning `none`. -/
def get_reward (action : Action) (grid0 grid1 : Option Grid) (player_location : Pos) :
    Option Nat :=
  match grid0 with
  | none => none
  | some g0 =>
    if collides (update_location player_location action) g0 then some 0
    else
      match grid1 with
      | none => some 1
      | some g1 =>
        some (lookahead_loop (update_location player_location action) g1 action_list)

/-- `class State`: the two-slot grid window `self.grids` (either slot may
be `None` in the source) and `self.player_location`. -/
structure State where
  grids : Option Grid × Option Grid
  player_location : Pos
  deriving DecidableEq

/-- `State.move`, with the global map supply passed explicitly: returns
the reward, the successor state (`none` is the source's `None`, i.e. a
terminal outcome), and the remaining map supply.  The outer `Option` is
the crash of `get_reward` on an absent `grids[0]`.  `NEXT_GRID(drop=True)`
returns the head of the supply (or `None` when it is empty) and removes
it; the source's `new_grids is None` test is vacuous (a list is never
`None`), and `all(grid is None for grid in new_grids)` is the conjunction
of the two `isNone` tests. -/
def move (s : State) (q : List Grid) (action : Action) :
    Option (Nat × Option State × List Grid) :=
  match get_reward action s.grids.1 s.grids.2 s.player_location with
  | none => none
  | some reward =>
    if reward = 0 then
      some (reward, none, q)
    else
      if s.grids.2.isNone && (q.head?).isNone then
        some (reward, none, q.tail)
      else
        some (reward,
          some ⟨(s.grids.2, q.head?),
                ((1 : Fin 3), (update_location s.player_location action).2)⟩,
          q.tail)

/-- The initial configuration described by the design: the window is the
first two grids pulled off the map supply (each pull consuming the head
when present) and the player starts at `START_LOCATION`; the remaining
supply is returned alongside. -/
def init_state (q : List Grid) : State × List Grid :=
  (⟨(q.head?, q.tail.head?), START_LOCATION⟩, q.tail.tail)

/-- Configurations reachable from an initial configuration by successful
(non-terminal) moves. -/
inductive Reach : State → List Grid → Prop
  | init (q : List Grid) : Reach (init_state q).1 (init_state q).2
  | step {s : State} {q : List Grid} {a : Action} {r : Nat} {s' : State} {q' : List Grid} :
      Reach s q → move s q a = some (r, some s', q') → Reach s' q'

/-- A sequence of successful (non-terminal) moves, recording the actions
taken. -/
inductive Steps : State → List Grid → List Action → State → List Grid → Prop
  | nil (s : State) (q : List Grid) : Steps s q [] s q
  | cons {s : State} {q : List Grid} {a : Action} {r : Nat} {s' : State} {q' : List Grid}
      {acts : List Action} {s'' : State} {q'' : List Grid} :
      move s q a = some (r, some s', q') → Steps s' q' acts s'' q'' →
      Steps s q (a :: acts) s'' q''

/-- The all-open slice. -/
def zeroGrid : Grid := fun _ _ => 0

/-- The fully occupied slice. -/
def fullGrid : Grid := fun _ _ => 1

/-- The reward rule exactly as the specification words it: `0` if the
clamped candidate collides with the resolution grid; otherwise `1` if the
lookahead grid is absent or every action applied to the candidate
collides with the lookahead grid; otherwise `2`.  The follow-up check is
phrased as existence of a safe action, with no enumeration order. -/
def reward_spec (action : Action) (g0 : Grid) (g1 : Option Grid) (p : Pos) : Nat :=
  if collides (update_location p action) g0 then 0
  else
    match g1 with
    | none => 1
    | some lg =>
      if ∃ m : Action,
          collides (update_location (update_location p action) m) lg = false then 2
      else 1

theorem mem_action_list (m : Action) : m ∈ action_list := by cases m <;> decide

theorem lookahead_loop_eq_ite (cur : Pos) (g : Grid) (l : List Action) :
    lookahead_loop cur g l =
      if ∃ m ∈ l, collides (update_location cur m) g = false then 2 else 1 := by
  induction l with
  | nil => simp [lookahead_loop]
  | cons m rest ih =>
    by_cases h : collides (update_location cur m) g = true
    · have hiff : (∃ x ∈ m :: rest, collides (update_location cur x) g = false) ↔
          (∃ x ∈ rest, collides (update_location cur x) g = false) := by
        constructor
        · rintro ⟨x, hx, hc⟩
          rcases List.mem_cons.mp hx with rfl | hx'
          · rw [h] at hc; cases hc
          · exact ⟨x, hx', hc⟩
        · rintro ⟨x, hx, hc⟩
          exact ⟨x, List.mem_cons_of_mem _ hx, hc⟩
      simp only [lookahead_loop, if_pos h, ih]
      exact (if_congr hiff rfl rfl).symm
    · have hf : collides (update_location cur m) g = false := by
        revert h; cases collides (update_location cur m) g <;> simp
      simp only [lookahead_loop, if_neg h]
      exact (if_pos ⟨m, List.mem_cons_self m rest, hf⟩).symm

/-- Claim C1: for every in-bounds position, action, resolution grid and
optional lookahead grid, `get_reward` returns exactly the value described
by the specification (`reward_spec`, an order-free existence check), and
that value is always `0`, `1` or `2`. -/
theorem get_reward_refines_spec (a : Action) (g0 : Grid) (g1 : Option Grid) (p : Pos) :
    get_reward a (some g0) g1 p = some (reward_spec a g0 g1 p) ∧
    (reward_spec a g0 g1 p = 0 ∨ reward_spec a g0 g1 p = 1 ∨ reward_spec a g0 g1 p = 2) := by
  constructor
  · simp only [get_reward, reward_spec]
    by_cases hc : collides (update_location p a) g0 = true
    · rw [if_pos hc, if_pos hc]
    · rw [if_neg hc, if_neg hc]
      cases g1 with
      | none => rfl
      | some lg =>
        dsimp only
        rw [lookahead_loop_eq_ite]
        have hiff : (∃ m ∈ action_list,
              collides (update_location (update_location p a) m) lg = false) ↔
            (∃ m : Action,
              collides (update_location (update_location p a) m) lg = false) := by
          constructor
          · rintro ⟨m, -, hm⟩; exact ⟨m, hm⟩
          · rintro ⟨m, hm⟩; exact ⟨m, mem_action_list m, hm⟩
        exact congrArg some (if_congr hiff rfl rfl)
  · by_cases hc : collides (update_location p a) g0 = true
    · simp [reward_spec, hc]
    · cases g1 with
      | none => simp [reward_spec, hc]
      | some lg =>
        by_cases he : ∃ m : Action,
            collides (update_location (update_location p a) m) lg = false
        · simp [reward_spec, hc, he]
        · simp [reward_spec, hc, he]

/-- Claim C2: `_collides` holds exactly when the player's own cell is
occupied, or the player is standing (`row = 1`) and the cell directly
below (row `2`, same column) is occupied; airborne and ducking players
are therefore checked only at their own cell. -/
theorem collides_iff (p : Pos) (g : Grid) :
    collides p g = true ↔ (g p.1 p.2 = 1 ∨ (p.1 = 1 ∧ g 2 p.2 = 1)) := by
  unfold collides
  by_cases h1 : g p.1 p.2 = 1
  · simp [h1]
  · by_cases h2 : p.1 = (1 : Fin 3) ∧ g (2 : Fin 3) p.2 = 1 <;> simp [h1, h2]

/-- Claim C8: clamping is the identity at each boundary (JUMP at row 0,
DUCK at row 2, LEFT at column 0, RIGHT at column 2), and STAY never
changes the column. -/
theorem clamp_boundary_identity :
    ∀ r c : Fin 3,
      (update_location ((0 : Fin 3), c) Action.JUMP).1 = 0 ∧
      (update_location ((2 : Fin 3), c) Action.DUCK).1 = 2 ∧
      (update_location (r, (0 : Fin 3)) Action.LEFT).2 = 0 ∧
      (update_location (r, (2 : Fin 3)) Action.RIGHT).2 = 2 ∧
      (update_location (r, c) Action.STAY).2 = c := by decide

/-- Claim C9: the reward computation is a pure function of the action,
the two grid slots and the player location: identical inputs give
identical outputs (and the embedding's `get_reward` reads nothing else). -/
theorem get_reward_deterministic (a a' : Action) (g0 g0' g1 g1' : Option Grid) (p p' : Pos)
    (ha : a = a') (h0 : g0 = g0') (h1 : g1 = g1') (hp : p = p') :
    get_reward a g0 g1 p = get_reward a' g0' g1' p' := by
  subst ha; subst h0; subst h1; subst hp; rfl

theorem get_reward_deterministic_witness :
    get_reward Action.STAY (some zeroGrid) (some fullGrid) START_LOCATION =
      get_reward Action.STAY (some zeroGrid) (some fullGrid) START_LOCATION :=
  get_reward_deterministic Action.STAY Action.STAY (some zeroGrid) (some zeroGrid)
    (some fullGrid) (some fullGrid) START_LOCATION START_LOCATION rfl rfl rfl rfl

theorem move_eq_some_active {s : State} {q : List Grid} {a : Action} {r : Nat} {s' : State}
    {q' : List Grid} (h : move s q a = some (r, some s', q')) :
    get_reward a s.grids.1 s.grids.2 s.player_location = some r ∧ r ≠ 0 ∧
    s' = ⟨(s.grids.2, q.head?),
      ((1 : Fin 3), (update_location s.player_location a).2)⟩ ∧
    q' = q.tail := by
  unfold move at h
  split at h
  · exact absurd h (by simp)
  next r0 heq =>
    split at h
    · simp at h
    next hr0 =>
      split at h
      · simp at h
      · rw [Option.some_inj, Prod.mk.injEq, Prod.mk.injEq, Option.some_inj] at h
        obtain ⟨hrr, hss, hqq⟩ := h
        subst hrr
        exact ⟨heq, hr0, hss.symm, hqq.symm⟩

theorem reach_lookahead_none_imp_queue_nil {s : State} {q : List Grid} (h : Reach s q) :
    s.grids.2 = none → q = [] := by
  induction h with
  | init q0 =>
    intro hn
    simp only [init_state] at hn ⊢
    cases q0 with
    | nil => rfl
    | cons g rest =>
      cases rest with
      | nil => rfl
      | cons g2 r2 => simp at hn
  | step hre hmv ih =>
    intro hn
    obtain ⟨-, -, hs', hq'⟩ := move_eq_some_active hmv
    subst hs'; subst hq'
    dsimp only at hn
    rw [List.head?_eq_none_iff] at hn
    rw [hn]
    rfl

/-- Claim C3: from any reachable configuration, a move whose reward is
nonzero performs exactly one pull on the map supply (the queue loses its
head, when it has one), forms the window `[previous lookahead, freshly
pulled grid]`, and yields `Terminal` exactly when the new resolution slot
— the previous lookahead grid — is absent; otherwise it yields the Active
state holding that window. -/
theorem move_window_shift (s : State) (q : List Grid) (a : Action) (r : Nat)
    (hre : Reach s q)
    (hr : get_reward a s.grids.1 s.grids.2 s.player_location = some r) (hnz : r ≠ 0) :
    move s q a = some (r,
      (match s.grids.2 with
       | none => none
       | some g =>
         some (⟨(some g, q.head?),
           ((1 : Fin 3), (update_location s.player_location a).2)⟩ : State)),
      q.tail) ∧
    (q ≠ [] → q.tail.length + 1 = q.length) := by
  constructor
  · unfold move
    rw [hr]
    dsimp only
    rw [if_neg hnz]
    cases hlook : s.grids.2 with
    | some g => simp [hlook]
    | none =>
      have hq : q = [] := reach_lookahead_none_imp_queue_nil hre hlook
      subst hq
      simp
  · intro hne
    cases q with
    | nil => exact absurd rfl hne
    | cons g t => simp

theorem move_window_shift_witness :
    move ⟨(some zeroGrid, some zeroGrid), START_LOCATION⟩ [zeroGrid] Action.STAY =
      some (2, some ⟨(some zeroGrid, some zeroGrid), START_LOCATION⟩, []) := by
  have h := move_window_shift ⟨(some zeroGrid, some zeroGrid), START_LOCATION⟩ [zeroGrid]
    Action.STAY 2 (Reach.init [zeroGrid, zeroGrid, zeroGrid]) (by decide) (by decide)
  exact h.1

/-- Claim C4 counterexample: for the course with exactly two grids (both
all-open), the map supply is empty once the initial window is built, yet
the first successful move yields an Active successor (window
`[second grid, absent]`), not a Terminal outcome. -/
theorem two_grid_course_first_move_not_terminal :
    move (init_state [zeroGrid, zeroGrid]).1 (init_state [zeroGrid, zeroGrid]).2 Action.STAY =
      some (2, some ⟨(some zeroGrid, none), START_LOCATION⟩, []) ∧
    (2 : Nat) ≠ 0 ∧
    move (init_state [zeroGrid, zeroGrid]).1 (init_state [zeroGrid, zeroGrid]).2 Action.STAY ≠
      some (2, none, []) :=
  ⟨by decide, by decide, by decide⟩

/-- Claim C4 amended: for a course of exactly two grids, one successful
move empties the lookahead slot but keeps the former lookahead grid as
the resolution slot, so the successor is still Active; a second
successful move then yields Terminal carrying that second move's
reward. -/
theorem two_grid_course_terminates_after_two_moves (g0 g1 : Grid) (a a2 : Action) (r r2 : Nat)
    (h1 : get_reward a (some g0) (some g1) START_LOCATION = some r) (hr : r ≠ 0)
    (h2 : get_reward a2 (some g1) none
      ((1 : Fin 3), (update_location START_LOCATION a).2) = some r2) (hr2 : r2 ≠ 0) :
    move (init_state [g0, g1]).1 (init_state [g0, g1]).2 a =
      some (r, some ⟨(some g1, none),
        ((1 : Fin 3), (update_location START_LOCATION a).2)⟩, []) ∧
    move ⟨(some g1, none), ((1 : Fin 3), (update_location START_LOCATION a).2)⟩ [] a2 =
      some (r2, none, []) := by
  constructor
  · show move ⟨(some g0, some g1), START_LOCATION⟩ [] a = _
    unfold move
    rw [h1]
    dsimp only
    rw [if_neg hr]
    rfl
  · unfold move
    rw [h2]
    dsimp only
    rw [if_neg hr2]
    rfl

theorem two_grid_course_terminates_after_two_moves_witness :
    move (init_state [zeroGrid, zeroGrid]).1 (init_state [zeroGrid, zeroGrid]).2 Action.STAY =
      some (2, some ⟨(some zeroGrid, none),
        ((1 : Fin 3), (update_location START_LOCATION Action.STAY).2)⟩, []) ∧
    move ⟨(some zeroGrid, none),
        ((1 : Fin 3), (update_location START_LOCATION Action.STAY).2)⟩ [] Action.STAY =
      some (1, none, []) :=
  two_grid_course_terminates_after_two_moves zeroGrid zeroGrid Action.STAY Action.STAY 2 1
    (by decide) (by decide) (by decide) (by decide)

/-- Claim C5 counterexample: a successful (non-terminal) move can leave
the map supply untouched.  With the two-grid course both grids sit in the
window and the supply is already empty; one successful move returns an
Active successor while the supply length stays `0`, which is neither
`0 - 1` (as integers) nor `2 - 1` (counting from the initial course). -/
theorem queue_length_drop_counterexample :
    move (init_state [zeroGrid, zeroGrid]).1 (init_state [zeroGrid, zeroGrid]).2 Action.STAY =
      some (2, some ⟨(some zeroGrid, none), START_LOCATION⟩, []) ∧
    ((init_state [zeroGrid, zeroGrid]).2).length = 0 ∧
    ¬ ((((init_state [zeroGrid, zeroGrid]).2).length : Int) =
        (((init_state [zeroGrid, zeroGrid]).2).length : Int) - 1) ∧
    ¬ (([] : List Grid).length = ([zeroGrid, zeroGrid] : List Grid).length - 1) :=
  ⟨by decide, by decide, by decide, by decide⟩

/-- Claim C5 amended: each successful move removes the head of the map
supply when the supply is nonempty and nothing when it is already empty:
after any sequence of `N` successful moves the supply is the original
with its first `N` elements dropped, so its length is the original
length minus `N` (truncated at zero; in particular it decreases by
exactly `N` whenever `N` is at most the starting length). -/
theorem drop_tail_eq_drop_succ {α : Type} (l : List α) (n : Nat) :
    l.tail.drop n = l.drop (n + 1) := by
  cases l <;> simp

theorem steps_queue_drop (s : State) (q : List Grid) (acts : List Action) (s' : State)
    (q' : List Grid) (h : Steps s q acts s' q') :
    q' = q.drop acts.length ∧ q'.length = q.length - acts.length := by
  have hdrop : q' = q.drop acts.length := by
    induction h with
    | nil s0 q0 => simp
    | cons hmv hsteps ih =>
      obtain ⟨-, -, -, hq'⟩ := move_eq_some_active hmv
      subst hq'
      rw [ih, List.length_cons, drop_tail_eq_drop_succ]
  exact ⟨hdrop, by rw [hdrop]; simp⟩

theorem steps_queue_drop_witness :
    ([] : List Grid) = ([zeroGrid] : List Grid).drop 1 ∧
    ([] : List Grid).length = ([zeroGrid] : List Grid).length - 1 :=
  steps_queue_drop ⟨(some zeroGrid, some zeroGrid), START_LOCATION⟩ [zeroGrid]
    [Action.STAY] ⟨(some zeroGrid, some zeroGrid), START_LOCATION⟩ []
    (Steps.cons
      (show move ⟨(some zeroGrid, some zeroGrid), START_LOCATION⟩ [zeroGrid] Action.STAY =
        some (2, some ⟨(some zeroGrid, some zeroGrid), START_LOCATION⟩, []) by decide)
      (Steps.nil _ _))

/-- Claim C6: a move whose reward is `0` transitions to Terminal carrying
reward `0` and consumes nothing: the map supply is returned exactly as it
was. -/
theorem crash_preserves_queue (s : State) (q : List Grid) (a : Action)
    (h : get_reward a s.grids.1 s.grids.2 s.player_location = some 0) :
    move s q a = some (0, none, q) := by
  unfold move
  rw [h]
  rfl

theorem crash_preserves_queue_witness :
    move ⟨(some fullGrid, some zeroGrid), START_LOCATION⟩ [zeroGrid] Action.STAY =
      some (0, none, [zeroGrid]) :=
  crash_preserves_queue ⟨(some fullGrid, some zeroGrid), START_LOCATION⟩ [zeroGrid]
    Action.STAY (by decide)

/-- Claim C7: whenever `move` returns an Active successor, that
successor's position has row `1` (standing) and its column is the column
of the clamped candidate position; only the lateral column persists. -/
theorem successor_row_standing (s : State) (q : List Grid) (a : Action) (r : Nat) (s' : State)
    (q' : List Grid) (h : move s q a = some (r, some s', q')) :
    s'.player_location.1 = 1 ∧
    s'.player_location.2 = (update_location s.player_location a).2 := by
  obtain ⟨-, -, hs', -⟩ := move_eq_some_active h
  subst hs'
  exact ⟨rfl, rfl⟩

theorem successor_row_standing_witness :
    ((⟨(some zeroGrid, none), START_LOCATION⟩ : State)).player_location.1 = 1 ∧
    ((⟨(some zeroGrid, none), START_LOCATION⟩ : State)).player_location.2 =
      (update_location START_LOCATION Action.JUMP).2 :=
  successor_row_standing ⟨(some zeroGrid, some zeroGrid), START_LOCATION⟩ [] Action.JUMP 2
    ⟨(some zeroGrid, none), START_LOCATION⟩ [] (by decide)

/-- `str_to_action`: lower-case the input token (Python `str.lower`,
which on the relevant code points only maps basic latin upper case to
lower case, as Lean's `String.toLower` does), then look it up in the
literal five-key table; a missing key raises `KeyError`, modelled by
`none`. -/
def str_to_action (move : String) : Option Action :=
  if move.toLower = ("l") then some Action.LEFT
  else if move.toLower = ("r") then some Action.RIGHT
  else if move.toLower = ("j") then some Action.JUMP
  else if move.toLower = ("d") then some Action.DUCK
  else if move.toLower = ("s") then some Action.STAY
  else none

theorem toLower_char_eq (a l u : Char) (hlu : u.toNat + 32 = l.toNat)
    (h : a.toLower = l) : a = l ∨ a = u := by
  simp only [Char.toLower] at h
  split at h
  next hcond =>
    right
    have hv : (a.toNat + 32).isValidChar := Or.inl (by omega)
    have ht : (Char.ofNat (a.toNat + 32)).toNat = a.toNat + 32 := by
      rw [Char.ofNat, dif_pos hv]; rfl
    have hnat : a.toNat = u.toNat := by
      have h2 := congrArg Char.toNat h
      rw [ht] at h2
      omega
    have h3 := congrArg Char.ofNat hnat
    rwa [Char.ofNat_toNat, Char.ofNat_toNat] at h3
  next hcond => left; exact h

theorem toLower_string_eq (s : String) (l u : Char) (hlu : u.toNat + 32 = l.toNat)
    (h : s.toLower = ⟨[l]⟩) : s = ⟨[l]⟩ ∨ s = ⟨[u]⟩ := by
  rw [String.toLower, String.map_eq] at h
  have hd : s.data.map Char.toLower = [l] := congrArg String.data h
  cases hdata : s.data with
  | nil => rw [hdata] at hd; simp at hd
  | cons a t =>
    rw [hdata] at hd
    simp only [List.map_cons, List.cons.injEq] at hd
    obtain ⟨ha, ht⟩ := hd
    have ht' : t = [] := List.map_eq_nil_iff.mp ht
    subst ht'
    rcases toLower_char_eq a l u hlu ha with rfl | rfl
    · exact Or.inl (String.ext hdata)
    · exact Or.inr (String.ext hdata)

/-- Claim C10: `str_to_action` maps exactly the ten strings
`l r j d s L R J D S` (lower-casing first) to the corresponding action,
and every other input string yields the error case — before the pure
driver loop ever calls `move`, so no game state or map supply is
touched. -/
theorem str_to_action_only_ten :
    str_to_action ("l") = some Action.LEFT ∧ str_to_action ("L") = some Action.LEFT ∧
    str_to_action ("r") = some Action.RIGHT ∧ str_to_action ("R") = some Action.RIGHT ∧
    str_to_action ("j") = some Action.JUMP ∧ str_to_action ("J") = some Action.JUMP ∧
    str_to_action ("d") = some Action.DUCK ∧ str_to_action ("D") = some Action.DUCK ∧
    str_to_action ("s") = some Action.STAY ∧ str_to_action ("S") = some Action.STAY ∧
    ∀ s : String,
      s ∉ (["l", "r", "j", "d", "s", "L", "R", "J", "D", "S"] : List String) →
      str_to_action s = none := by
  have el : ("l" : String).toLower = ("l") := by rw [String.toLower, String.map_eq]; decide
  have eL : ("L" : String).toLower = ("l") := by rw [String.toLower, String.map_eq]; decide
  have er : ("r" : String).toLower = ("r") := by rw [String.toLower, String.map_eq]; decide
  have eR : ("R" : String).toLower = ("r") := by rw [String.toLower, String.map_eq]; decide
  have ej : ("j" : String).toLower = ("j") := by rw [String.toLower, String.map_eq]; decide
  have eJ : ("J" : String).toLower = ("j") := by rw [String.toLower, String.map_eq]; decide
  have ed : ("d" : String).toLower = ("d") := by rw [String.toLower, String.map_eq]; decide
  have eD : ("D" : String).toLower = ("d") := by rw [String.toLower, String.map_eq]; decide
  have es : ("s" : String).toLower = ("s") := by rw [String.toLower, String.map_eq]; decide
  have eS : ("S" : String).toLower = ("s") := by rw [String.toLower, String.map_eq]; decide
  refine ⟨?_, ?_, ?_, ?_, ?_, ?_, ?_, ?_, ?_, ?_, ?_⟩
  · simp only [str_to_action, el]; decide
  · simp only [str_to_action, eL]; decide
  · simp only [str_to_action, er]; decide
  · simp only [str_to_action, eR]; decide
  · simp only [str_to_action, ej]; decide
  · simp only [str_to_action, eJ]; decide
  · simp only [str_to_action, ed]; decide
  · simp only [str_to_action, eD]; decide
  · simp only [str_to_action, es]; decide
  · simp only [str_to_action, eS]; decide
  · intro s hs
    by_cases h1 : s.toLower = ("l")
    · rcases toLower_string_eq s 'l' 'L' (by decide) h1 with rfl | rfl
      · exact absurd (by decide) hs
      · exact absurd (by decide) hs
    · by_cases h2 : s.toLower = ("r")
      · rcases toLower_string_eq s 'r' 'R' (by decide) h2 with rfl | rfl
        · exact absurd (by decide) hs
        · exact absurd (by decide) hs
      · by_cases h3 : s.toLower = ("j")
        · rcases toLower_string_eq s 'j' 'J' (by decide) h3 with rfl | rfl
          · exact absurd (by decide) hs
          · exact absurd (by decide) hs
        · by_cases h4 : s.toLower = ("d")
          · rcases toLower_string_eq s 'd' 'D' (by decide) h4 with rfl | rfl
            · exact absurd (by decide) hs
            · exact absurd (by decide) hs
          · by_cases h5 : s.toLower = ("s")
            · rcases toLower_string_eq s 's' 'S' (by decide) h5 with rfl | rfl
              · exact absurd (by decide) hs
              · exact absurd (by decide) hs
            · simp only [str_to_action, if_neg h1, if_neg h2, if_neg h3, if_neg h4, if_neg h5]

theorem str_to_action_only_ten_witness :
    str_to_action ("x") = none :=
  str_to_action_only_ten.2.2.2.2.2.2.2.2.2.2 ("x") (by decide)

end Play
